import Mathlib

/-!
# Verification of the `eslint-friendly-formatter` report pipeline

Shallow embedding of `src/index.js`: an ESLint formatter that flattens
per-file results into one diagnostic list, sorts it with a multi-key
comparator, optionally filters by rule, renders a table of rows, and appends
a summary line plus per-rule tally tables.

Modelling conventions:
* JavaScript `undefined`-able fields become `Option` types; JS relational
  comparison (`<`/`>`) involving `undefined` is always `false`, which we model
  explicitly (`jsLtStr`, `jsGtNat`, ...).
* Styling (`chalk`) only wraps text in terminal escape codes and the table
  measures widths with `stripColor`; we model every styling function as the
  identity on text.
* `String.prototype.localeCompare` for file paths is modelled as code-point
  lexicographic comparison.
* JS object property access coerces its key to a string, so
  `hash[undefined]` uses the property key `"undefined"` (`jsPropKey`).
* `path.resolve` is an external collaborator; it is a function field of the
  configuration record.
-/

/-- One ESLint message as supplied by the engine inside a file result.
Fields that may be `undefined` in JS are `Option`s. -/
structure Message where
  ruleId : Option String
  severity : Nat
  fatal : Bool
  line : Option Nat
  column : Option Nat
  message : String
  source : Option String
deriving DecidableEq, Repr

/-- One per-file result from the engine: a file path and its messages
(`result.messages || []` treats an absent list as empty). -/
structure FileResult where
  filePath : String
  messages : Option (List Message)
deriving DecidableEq, Repr

/-- A flattened diagnostic: a message tagged with its file path
(the object built by `extend({filePath: ...}, message)` in `src/index.js`). -/
structure Entry where
  filePath : String
  ruleId : Option String
  severity : Nat
  fatal : Bool
  line : Option Nat
  column : Option Nat
  message : String
  source : Option String
deriving DecidableEq, Repr

/-- The configuration surface read from argv/environment in `src/index.js`:
`EFF_ABSOLUTE_PATHS`, `--eff-by-issue`, `--eff-filter`, and the `path.resolve`
collaborator. -/
structure Config where
  absolutePaths : Bool
  groupByIssue : Bool
  filterRule : Option String
  resolve : String → String

/-- `pluralize` from `src/index.js`: append an `s` unless the count is 1. -/
def pluralize (word : String) (count : Nat) : String :=
  if count = 1 then word else word ++ "s"

/-- The flattening loop: each message is copied into a fresh object carrying
`filePath` (resolved when `EFF_ABSOLUTE_PATHS` is set); the engine-supplied
message is only read, never written. -/
def flattenEntries (cfg : Config) (results : List FileResult) : List Entry :=
  results.flatMap fun r =>
    (r.messages.getD []).map fun m =>
      { filePath := if cfg.absolutePaths then cfg.resolve r.filePath else r.filePath
        ruleId := m.ruleId
        severity := m.severity
        fatal := m.fatal
        line := m.line
        column := m.column
        message := m.message
        source := m.source }

/-- JS string `a < b`: code-unit lexicographic comparison, modelled as
lexicographic comparison of the character data. -/
def strLt (a b : String) : Bool :=
  a.data < b.data

/-- JS `a < b` on possibly-`undefined` strings: any comparison with
`undefined` evaluates to `false`. -/
def jsLtStr : Option String → Option String → Bool
  | some a, some b => strLt a b
  | _, _ => false

/-- JS `a > b` on possibly-`undefined` strings. -/
def jsGtStr : Option String → Option String → Bool
  | some a, some b => strLt b a
  | _, _ => false

/-- JS `a < b` on possibly-`undefined` numbers. -/
def jsLtNat : Option Nat → Option Nat → Bool
  | some a, some b => a < b
  | _, _ => false

/-- JS `a > b` on possibly-`undefined` numbers. -/
def jsGtNat : Option Nat → Option Nat → Bool
  | some a, some b => b < a
  | _, _ => false

/-- The sort comparator from `src/index.js` (`entries.sort(...)`): severity,
then — only when grouping by issue — ruleId via JS `<`/`>`, then filePath
(`localeCompare`, modelled as lexicographic), then line, then column. -/
def compareEntries (g : Bool) (a b : Entry) : Int :=
  if b.severity < a.severity then 1
  else if a.severity < b.severity then -1
  else if g && jsGtStr a.ruleId b.ruleId then 1
  else if g && jsLtStr a.ruleId b.ruleId then -1
  else if strLt a.filePath b.filePath then -1
  else if strLt b.filePath a.filePath then 1
  else if jsGtNat a.line b.line then 1
  else if jsLtNat a.line b.line then -1
  else if jsGtNat a.column b.column then 1
  else if jsLtNat a.column b.column then -1
  else 0

/-- The comparator as a boolean "less-or-equal", the form a stable sort
consumes. -/
def codeLe (cfg : Config) (a b : Entry) : Bool :=
  compareEntries cfg.groupByIssue a b ≤ 0

/-- `entries.sort(comparator)`: JS `Array.prototype.sort` is a stable sort,
modelled as stable merge sort with the source comparator. -/
def sortEntries (cfg : Config) (entries : List Entry) : List Entry :=
  entries.mergeSort (codeLe cfg)

/-- The filter test from the reduce step: `if (filterRule) { if
(message.ruleId !== filterRule) return seq; }`. An empty-string filter is
falsy in JS, so it disables filtering; an absent ruleId is `undefined` and
never strictly equals a string. -/
def passesFilter (cfg : Config) (m : Entry) : Bool :=
  match cfg.filterRule with
  | none => true
  | some f => if f = "" then true else m.ruleId == some f

/-- JS property-key coercion: `hash[message.ruleId]` with `undefined` ruleId
stores under the string key `"undefined"`. -/
def jsPropKey : Option String → String
  | none => "undefined"
  | some s => s

/-- `hash[key] = (hash[key] || 0) + 1` on a JS object, modelled as an
insertion-ordered association list. -/
def bump (h : List (String × Nat)) (k : String) : List (String × Nat) :=
  if (h.lookup k).isSome then
    h.map fun p => if p.1 = k then (p.1, p.2 + 1) else p
  else h ++ [(k, 1)]

/-- Count stored under a key, 0 when absent (`hash[key] || 0`). -/
def hashCount (h : List (String × Nat)) (k : String) : Nat :=
  (h.lookup k).getD 0

/-- `message.source !== undefined && message.source.length < 1000`. -/
def hasSource (m : Entry) : Bool :=
  match m.source with
  | none => false
  | some s => s.length < 1000

/-- The pointer ("arrow") loop: one character per index `i < column` — a tab
when `source.charAt(i)` is a tab (out-of-range `charAt` yields `""`, never a
tab), a space otherwise — then a caret. The loop guard `i < undefined` is
always false in JS, so an absent column yields just the caret. -/
def buildArrow (src : String) (column : Option Nat) : String :=
  String.mk ((List.range (column.getD 0)).map fun i =>
    if src.data.getD i ' ' = '\t' then '\t' else ' ') ++ "^"

/-- `message.message.replace(/\.$/, '')`: remove a single period anchored at
the end of the string. -/
def stripTrailingPeriod (s : String) : String :=
  if s.data.getLast? = some '.' then String.mk s.data.dropLast else s

/-- One four-cell logical row pushed onto `seq` in the reduce step. -/
structure Row where
  c1 : String
  c2 : String
  c3 : String
  c4 : String
deriving DecidableEq, Repr

/-- The row literal from `src/index.js` lines 205–211 with styling as
identity: severity glyph and rule label, normalized message, and the
location cell using `$MARKER$` as a deferred newline. (`getKeyLink` returns
its key unstyled; the `getFileLink` result is computed but never used.) -/
def mkRow (m : Entry) (isError : Bool) : Row :=
  let line := m.line.getD 0
  let column := m.column.getD 0
  let hs := hasSource m
  let arrow := if hs then buildArrow (m.source.getD "") m.column else ""
  { c1 := ""
    c2 := (if isError then "✘" else "⚠") ++ "  " ++ m.ruleId.getD ""
    c3 := stripTrailingPeriod m.message
    c4 := "$MARKER$  " ++ m.filePath ++ " : " ++ toString line ++ ":" ++ toString column ++
          "$MARKER$  " ++ (if hs then m.source.getD "" ++ "$MARKER$  " ++ arrow else "") }

/-- The accumulator of the reduce step: rows plus the counters and per-rule
tallies mutated alongside `seq`. -/
structure BuildState where
  rows : List Row
  errors : Nat
  warnings : Nat
  errorsHash : List (String × Nat)
  warningsHash : List (String × Nat)
  summaryColor : String
deriving Repr

def initState : BuildState :=
  { rows := [], errors := 0, warnings := 0
    errorsHash := [], warningsHash := [], summaryColor := "yellow" }

/-- One iteration of the reduce: drop the entry when the filter rejects it;
otherwise classify (`message.fatal || message.severity === 2`), bump the
matching counter and tally, and push the row. -/
def stepEntry (cfg : Config) (st : BuildState) (m : Entry) : BuildState :=
  if passesFilter cfg m then
    if m.fatal || m.severity == 2 then
      { st with rows := st.rows ++ [mkRow m true]
                errors := st.errors + 1
                errorsHash := bump st.errorsHash (jsPropKey m.ruleId)
                summaryColor := "red" }
    else
      { st with rows := st.rows ++ [mkRow m false]
                warnings := st.warnings + 1
                warningsHash := bump st.warningsHash (jsPropKey m.ruleId)
                summaryColor := "yellow" }
  else st

/-- The whole reduce over the sorted entries. -/
def buildState (cfg : Config) (entries : List Entry) : BuildState :=
  entries.foldl (stepEntry cfg) initState

def padRight (s : String) (w : Nat) : String :=
  s ++ String.mk (List.replicate (w - s.length) ' ')

def padLeft (s : String) (w : Nat) : String :=
  String.mk (List.replicate (w - s.length) ' ') ++ s

/-- Modelled from the spec: the external `text-table` collaborator (§4.5),
which is not part of this repository's sources — pad each cell to the
maximum visible width of its column (all main-table columns are
left-aligned), join cells with two spaces and rows with newlines, and
produce empty output for zero rows. -/
def renderTable (rows : List Row) : String :=
  let w1 := (rows.map (·.c1.length)).foldl max 0
  let w2 := (rows.map (·.c2.length)).foldl max 0
  let w3 := (rows.map (·.c3.length)).foldl max 0
  String.intercalate "\n" (rows.map fun r =>
    padRight r.c1 w1 ++ "  " ++ padRight r.c2 w2 ++ "  " ++ padRight r.c3 w3 ++ "  " ++ r.c4)

/-- Global replacement of the 8-character `$MARKER$` token by a newline
(`.replace(/\$MARKER\$/g, '\n')`), written with an explicit fuel bound: the
scan consumes at least one character per step, so `l.length` fuel suffices. -/
def replaceMarkerAux : Nat → List Char → List Char
  | 0, l => l
  | _ + 1, [] => []
  | fuel + 1, c :: cs =>
    if "$MARKER$".data.isPrefixOf (c :: cs) then
      '\n' :: replaceMarkerAux fuel (cs.drop 7)
    else c :: replaceMarkerAux fuel cs

def applyMarkers (s : String) : String :=
  String.mk (replaceMarkerAux s.data.length s.data)

/-- The summary line pushed when `total > 0` (lines 228–239), with the chalk
wrapper as identity. -/
def summaryLine (total errors warnings : Nat) : String :=
  String.join ["✘ ", toString total, pluralize " problem" total, " (",
    toString errors, pluralize " error" errors, ", ",
    toString warnings, pluralize " warning" warnings, ")\n"]

/-- `printSummary`: title plus a two-column table of tallies sorted by the
comparator `hash[a] > hash[b] ? -1 : 1` (descending count), styling as
identity. -/
def printSummary (h : List (String × Nat)) (title : String) : String :=
  let keys := (h.map (·.1)).mergeSort fun a b => hashCount h b < hashCount h a
  let w := (keys.map fun k => (toString (hashCount h k)).length).foldl max 0
  "\n" ++ title ++ ":\n" ++
    String.intercalate "\n" (keys.map fun k =>
      "  " ++ padLeft (toString (hashCount h k)) w ++ "  " ++ k)

/-- The sorted, flattened entry list for an invocation
(`results = results || []` makes a missing argument an empty list). -/
def sortedEntries (cfg : Config) (results : Option (List FileResult)) : List Entry :=
  sortEntries cfg (flattenEntries cfg (results.getD []))

/-- The pre-filter total `total = entries.length` used for the summary line
and the emptiness test. -/
def reportedTotal (cfg : Config) (results : Option (List FileResult)) : Nat :=
  (sortedEntries cfg results).length

/-- The trailing separator appended after the summaries: two newlines
followed by 58 equals signs (the literal at the end of `module.exports`). -/
def trailingSeparator : String :=
  "\n\n" ++ String.mk (List.replicate 58 '=')

/-- The exported formatter (`module.exports`): flatten, sort, reduce to rows
and tallies, render, and return the empty string unless `total > 0`. -/
def formatResults (cfg : Config) (results : Option (List FileResult)) : String :=
  let entries := sortedEntries cfg results
  let st := buildState cfg entries
  let total := entries.length
  let body := "\n" ++ applyMarkers (renderTable st.rows) ++ "\n\n"
  let output :=
    if total > 0 then
      body ++ summaryLine total st.errors st.warnings ++
        (if st.errors > 0 then printSummary st.errorsHash "Errors" else "") ++
        (if st.warnings > 0 then printSummary st.warningsHash "Warnings" else "") ++
        trailingSeparator
    else body
  if total > 0 then output else ""

/-! ## Spec-side definitions

The following definitions follow the specification's words (§4.2 read with
the §3 defaults), for comparison against the source-derived comparator
above. -/

/-- The spec's five-key sort key: severity; when grouping, ruleId with an
absent/empty ruleId read as the empty string; filePath; line; column (line
and column read through their documented default 0). -/
def entryKey (g : Bool) (e : Entry) : Nat × String × String × Nat × Nat :=
  (e.severity, (if g then e.ruleId.getD "" else ""), e.filePath,
    e.line.getD 0, e.column.getD 0)

/-- Lexicographic less-or-equal on five-key tuples: evaluated left to
right, the first non-equal key wins. -/
def lexLe5 : Nat × String × String × Nat × Nat → Nat × String × String × Nat × Nat → Bool
  | (s1, r1, p1, l1, c1), (s2, r2, p2, l2, c2) =>
    s1 < s2 || (s1 == s2 && (strLt r1 r2 || (r1 == r2 && (strLt p1 p2 || (p1 == p2 &&
      (l1 < l2 || (l1 == l2 && c1 ≤ c2)))))))

/-- The spec's tuple comparator on diagnostics, as a boolean
less-or-equal. -/
def specLe (g : Bool) (a b : Entry) : Bool :=
  lexLe5 (entryKey g a) (entryKey g b)

/-- A diagnostic with every sort key present: line and column are present,
and — when grouping by category — so is ruleId. -/
def keysPresent (g : Bool) (e : Entry) : Prop :=
  e.line.isSome = true ∧ e.column.isSome = true ∧ (g = true → e.ruleId.isSome = true)

instance (g : Bool) (e : Entry) : Decidable (keysPresent g e) := by
  unfold keysPresent; infer_instance

/-! ## Helper lemmas -/

theorem strLt_irrefl (a : String) : strLt a a = false := by
  simp [strLt]

theorem strLt_asymm {a b : String} (h : strLt a b = true) : strLt b a = false := by
  simp only [strLt, decide_eq_true_eq, decide_eq_false_iff_not] at *
  exact lt_asymm h

theorem strLt_trans {a b c : String} (h1 : strLt a b = true) (h2 : strLt b c = true) :
    strLt a c = true := by
  simp only [strLt, decide_eq_true_eq] at *
  exact lt_trans h1 h2

theorem strLt_trichotomy (a b : String) : strLt a b = true ∨ a = b ∨ strLt b a = true := by
  rcases lt_trichotomy a.data b.data with h | h | h
  · exact Or.inl (by simpa [strLt] using h)
  · refine Or.inr (Or.inl ?_)
    cases a; cases b; exact congrArg String.mk (by simpa using h)
  · exact Or.inr (Or.inr (by simpa [strLt] using h))

theorem strLt_total {a b : String} (h : strLt b a = false) : strLt a b = true ∨ a = b := by
  rcases strLt_trichotomy a b with h1 | h1 | h1
  · exact Or.inl h1
  · exact Or.inr h1
  · rw [h1] at h; cases h

theorem lexLe5_iff (s1 s2 l1 c1 l2 c2 : Nat) (r1 p1 r2 p2 : String) :
    lexLe5 (s1, r1, p1, l1, c1) (s2, r2, p2, l2, c2) = true ↔
      s1 < s2 ∨ s1 = s2 ∧ (strLt r1 r2 = true ∨ r1 = r2 ∧ (strLt p1 p2 = true ∨ p1 = p2 ∧
        (l1 < l2 ∨ l1 = l2 ∧ c1 ≤ c2))) := by
  simp [lexLe5, Bool.or_eq_true, Bool.and_eq_true, beq_iff_eq, decide_eq_true_eq]

theorem lexLe5_trans {x y z : Nat × String × String × Nat × Nat}
    (h1 : lexLe5 x y = true) (h2 : lexLe5 y z = true) : lexLe5 x z = true := by
  obtain ⟨s1, r1, p1, l1, c1⟩ := x
  obtain ⟨s2, r2, p2, l2, c2⟩ := y
  obtain ⟨s3, r3, p3, l3, c3⟩ := z
  rw [lexLe5_iff] at h1 h2 ⊢
  rcases h1 with h1 | ⟨es1, h1⟩
  · rcases h2 with h2 | ⟨es2, h2⟩
    · exact Or.inl (lt_trans h1 h2)
    · exact Or.inl (es2 ▸ h1)
  · rcases h2 with h2 | ⟨es2, h2⟩
    · exact Or.inl (es1 ▸ h2)
    · refine Or.inr ⟨es1.trans es2, ?_⟩
      rcases h1 with h1 | ⟨er1, h1⟩
      · rcases h2 with h2 | ⟨er2, h2⟩
        · exact Or.inl (strLt_trans h1 h2)
        · exact Or.inl (er2 ▸ h1)
      · rcases h2 with h2 | ⟨er2, h2⟩
        · exact Or.inl (er1 ▸ h2)
        · refine Or.inr ⟨er1.trans er2, ?_⟩
          rcases h1 with h1 | ⟨ep1, h1⟩
          · rcases h2 with h2 | ⟨ep2, h2⟩
            · exact Or.inl (strLt_trans h1 h2)
            · exact Or.inl (ep2 ▸ h1)
          · rcases h2 with h2 | ⟨ep2, h2⟩
            · exact Or.inl (ep1 ▸ h2)
            · refine Or.inr ⟨ep1.trans ep2, ?_⟩
              rcases h1 with h1 | ⟨el1, h1⟩
              · rcases h2 with h2 | ⟨el2, h2⟩
                · exact Or.inl (lt_trans h1 h2)
                · exact Or.inl (el2 ▸ h1)
              · rcases h2 with h2 | ⟨el2, h2⟩
                · exact Or.inl (el1 ▸ h2)
                · exact Or.inr ⟨el1.trans el2, le_trans h1 h2⟩

theorem lexLe5_total (x y : Nat × String × String × Nat × Nat) :
    lexLe5 x y = true ∨ lexLe5 y x = true := by
  obtain ⟨s1, r1, p1, l1, c1⟩ := x
  obtain ⟨s2, r2, p2, l2, c2⟩ := y
  rw [lexLe5_iff, lexLe5_iff]
  rcases Nat.lt_trichotomy s1 s2 with h | h | h
  · exact Or.inl (Or.inl h)
  · subst h
    rcases strLt_trichotomy r1 r2 with hr | hr | hr
    · exact Or.inl (Or.inr ⟨rfl, Or.inl hr⟩)
    · subst hr
      rcases strLt_trichotomy p1 p2 with hp | hp | hp
      · exact Or.inl (Or.inr ⟨rfl, Or.inr ⟨rfl, Or.inl hp⟩⟩)
      · subst hp
        rcases Nat.lt_trichotomy l1 l2 with hl | hl | hl
        · exact Or.inl (Or.inr ⟨rfl, Or.inr ⟨rfl, Or.inr ⟨rfl, Or.inl hl⟩⟩⟩)
        · subst hl
          rcases Nat.le_total c1 c2 with hc | hc
          · exact Or.inl (Or.inr ⟨rfl, Or.inr ⟨rfl, Or.inr ⟨rfl, Or.inr ⟨rfl, hc⟩⟩⟩⟩)
          · exact Or.inr (Or.inr ⟨rfl, Or.inr ⟨rfl, Or.inr ⟨rfl, Or.inr ⟨rfl, hc⟩⟩⟩⟩)
        · exact Or.inr (Or.inr ⟨rfl, Or.inr ⟨rfl, Or.inr ⟨rfl, Or.inl hl⟩⟩⟩)
      · exact Or.inr (Or.inr ⟨rfl, Or.inr ⟨rfl, Or.inl hp⟩⟩)
    · exact Or.inr (Or.inr ⟨rfl, Or.inl hr⟩)
  · exact Or.inr (Or.inl h)

theorem specLe_trans (g : Bool) (a b c : Entry) (h1 : specLe g a b = true)
    (h2 : specLe g b c = true) : specLe g a c = true :=
  lexLe5_trans h1 h2

theorem specLe_total (g : Bool) (a b : Entry) : (specLe g a b || specLe g b a) = true := by
  rcases lexLe5_total (entryKey g a) (entryKey g b) with h | h <;>
    simp [specLe, h]

theorem compareEntries_le_iff (g : Bool) (a b : Entry)
    (ha : keysPresent g a) (hb : keysPresent g b) :
    compareEntries g a b ≤ 0 ↔ specLe g a b = true := by
  obtain ⟨ha1, ha2, ha3⟩ := ha
  obtain ⟨hb1, hb2, hb3⟩ := hb
  obtain ⟨la, hla⟩ := Option.isSome_iff_exists.mp ha1
  obtain ⟨ca, hca⟩ := Option.isSome_iff_exists.mp ha2
  obtain ⟨lb, hlb⟩ := Option.isSome_iff_exists.mp hb1
  obtain ⟨cb, hcb⟩ := Option.isSome_iff_exists.mp hb2
  cases g with
  | false =>
    unfold compareEntries specLe entryKey
    rw [hla, hlb, hca, hcb]
    simp only [Bool.false_and, Bool.false_eq_true, if_false, if_neg (by simp : ¬(false = true)),
      Option.getD_some, jsGtNat, jsLtNat, lexLe5_iff, strLt_irrefl]
    rcases Nat.lt_trichotomy a.severity b.severity with h | h | h
    · simp [h, Nat.lt_asymm h]
    · rw [h]
      simp only [lt_irrefl, if_false, if_neg (lt_irrefl b.severity)]
      rcases strLt_trichotomy a.filePath b.filePath with hp | hp | hp
      · simp [hp, strLt_asymm hp]
      · rw [hp]
        simp only [strLt_irrefl, Bool.false_eq_true, if_false]
        rcases Nat.lt_trichotomy la lb with hl | hl | hl
        · simp [hl, Nat.lt_asymm hl]
        · rw [hl]
          simp only [lt_irrefl, if_false]
          rcases Nat.lt_trichotomy ca cb with hc | hc | hc
          · simp [hc, Nat.lt_asymm hc, Nat.le_of_lt hc]
          · simp [hc]
          · simp [hc, Nat.lt_asymm hc, Nat.not_le.mpr hc]
        · simp [hl, Nat.lt_asymm hl, Nat.ne_of_gt hl]
      · have hne : a.filePath ≠ b.filePath := by
          intro he; rw [he, strLt_irrefl] at hp; cases hp
        simp [hp, strLt_asymm hp, hne]
    · simp [h, Nat.lt_asymm h, Nat.ne_of_gt h]
  | true =>
    obtain ⟨ra, hra⟩ := Option.isSome_iff_exists.mp (ha3 rfl)
    obtain ⟨rb, hrb⟩ := Option.isSome_iff_exists.mp (hb3 rfl)
    unfold compareEntries specLe entryKey
    rw [hla, hlb, hca, hcb, hra, hrb]
    simp only [Bool.true_and, if_true, Option.getD_some, jsGtStr, jsLtStr, jsGtNat, jsLtNat,
      lexLe5_iff, if_pos rfl]
    rcases Nat.lt_trichotomy a.severity b.severity with h | h | h
    · simp [h, Nat.lt_asymm h]
    · rw [h]
      simp only [lt_irrefl, if_false, if_neg (lt_irrefl b.severity)]
      rcases strLt_trichotomy ra rb with hr | hr | hr
      · simp [hr, strLt_asymm hr]
      · rw [hr]
        simp only [strLt_irrefl, Bool.false_eq_true, if_false]
        rcases strLt_trichotomy a.filePath b.filePath with hp | hp | hp
        · simp [hp, strLt_asymm hp]
        · rw [hp]
          simp only [strLt_irrefl, Bool.false_eq_true, if_false]
          rcases Nat.lt_trichotomy la lb with hl | hl | hl
          · simp [hl, Nat.lt_asymm hl]
          · rw [hl]
            simp only [lt_irrefl, if_false]
            rcases Nat.lt_trichotomy ca cb with hc | hc | hc
            · simp [hc, Nat.lt_asymm hc, Nat.le_of_lt hc]
            · simp [hc]
            · simp [hc, Nat.lt_asymm hc, Nat.not_le.mpr hc]
          · simp [hl, Nat.lt_asymm hl, Nat.ne_of_gt hl]
        · have hne : a.filePath ≠ b.filePath := by
            intro he; rw [he, strLt_irrefl] at hp; cases hp
          simp [hp, strLt_asymm hp, hne]
      · have hne : ra ≠ rb := by
          intro he; rw [he, strLt_irrefl] at hr; cases hr
        simp [hr, strLt_asymm hr, hne]
    · simp [h, Nat.lt_asymm h, Nat.ne_of_gt h]

theorem codeLe_eq_specLe (cfg : Config) (a b : Entry)
    (ha : keysPresent cfg.groupByIssue a) (hb : keysPresent cfg.groupByIssue b) :
    codeLe cfg a b = specLe cfg.groupByIssue a b := by
  have h := compareEntries_le_iff cfg.groupByIssue a b ha hb
  unfold codeLe
  rcases hs : specLe cfg.groupByIssue a b with _ | _
  · rw [hs] at h
    have hn : ¬ (compareEntries cfg.groupByIssue a b ≤ 0) := fun hc => by simpa using h.mp hc
    simp [hn]
  · rw [hs] at h
    simp [h.mpr rfl]

theorem stepEntry_skip (cfg : Config) (st : BuildState) (m : Entry)
    (hp : passesFilter cfg m = false) : stepEntry cfg st m = st := by
  simp [stepEntry, hp]

theorem stepEntry_pass (cfg : Config) (st : BuildState) (m : Entry)
    (hp : passesFilter cfg m = true) :
    (stepEntry cfg st m).rows.length = st.rows.length + 1 ∧
    (stepEntry cfg st m).errors + (stepEntry cfg st m).warnings =
      st.errors + st.warnings + 1 := by
  rcases he : (m.fatal || m.severity == 2) with _ | _ <;> simp [stepEntry, hp, he] <;> omega

theorem stepEntry_pass_eq (cfg cfg' : Config) (st : BuildState) (m : Entry)
    (hp : passesFilter cfg m = true) (hp' : passesFilter cfg' m = true) :
    stepEntry cfg st m = stepEntry cfg' st m := by
  unfold stepEntry
  rw [hp, hp']

theorem foldl_stepEntry_counts (cfg : Config) (l : List Entry) (st : BuildState) :
    ((l.foldl (stepEntry cfg) st).rows.length =
      st.rows.length + (l.filter (passesFilter cfg)).length) ∧
    ((l.foldl (stepEntry cfg) st).errors + (l.foldl (stepEntry cfg) st).warnings =
      st.errors + st.warnings + (l.filter (passesFilter cfg)).length) := by
  induction l generalizing st with
  | nil => simp
  | cons m t ih =>
    rcases hp : passesFilter cfg m with _ | _
    · simp only [List.foldl_cons, List.filter_cons, hp, Bool.false_eq_true, if_false]
      rw [stepEntry_skip cfg st m hp]
      exact ih st
    · obtain ⟨h1, h2⟩ := stepEntry_pass cfg st m hp
      obtain ⟨ih1, ih2⟩ := ih (stepEntry cfg st m)
      simp only [List.foldl_cons, List.filter_cons, hp, if_true, List.length_cons]
      omega

theorem foldl_stepEntry_dropFilter (cfg : Config) (f : String)
    (hf : cfg.filterRule = some f) (hne : f ≠ "") (l : List Entry) (st : BuildState) :
    l.foldl (stepEntry cfg) st =
      (l.filter fun m => m.ruleId == some f).foldl
        (stepEntry { cfg with filterRule := none }) st := by
  induction l generalizing st with
  | nil => rfl
  | cons m t ih =>
    have hp : passesFilter cfg m = (m.ruleId == some f) := by
      simp [passesFilter, hf, hne]
    rcases hm : (m.ruleId == some f) with _ | _
    · rw [List.foldl_cons, List.filter_cons, if_neg (by simp [hm]),
        stepEntry_skip cfg st m (hp.trans hm)]
      exact ih st
    · rw [List.foldl_cons, List.filter_cons, if_pos (by simp [hm]), List.foldl_cons,
        stepEntry_pass_eq cfg { cfg with filterRule := none } st m (hp.trans hm)
          (by simp [passesFilter])]
      exact ih _

theorem lookup_bump_self (h : List (String × Nat)) (k : String) :
    (bump h k).lookup k = some (hashCount h k + 1) := by
  induction h with
  | nil => simp [bump, hashCount]
  | cons p t ih =>
    obtain ⟨k', v⟩ := p
    by_cases hk : k' = k
    · subst hk
      simp [bump, hashCount, List.lookup_cons]
    · have hkk : (k == k') = false := by simp [Ne.symm hk]
      rcases ht : (t.lookup k).isSome with _ | _
      · have hb : bump (⟨k', v⟩ :: t) k = (⟨k', v⟩ :: t) ++ [(k, 1)] := by
          simp [bump, List.lookup_cons, hkk, ht]
        rw [hb]
        have hb' : bump t k = t ++ [(k, 1)] := by simp [bump, ht]
        rw [hb'] at ih
        simpa [List.lookup_cons, hkk, hashCount, hk] using ih
      · have hb : bump (⟨k', v⟩ :: t) k =
            (⟨k', v⟩ :: t).map fun p => if p.1 = k then (p.1, p.2 + 1) else p := by
          simp [bump, List.lookup_cons, hkk, ht, hk]
        rw [hb]
        have hb' : bump t k = t.map fun p => if p.1 = k then (p.1, p.2 + 1) else p := by
          simp [bump, ht]
        rw [hb'] at ih
        simpa [List.lookup_cons, hkk, hashCount, hk] using ih

theorem hashCount_bump_self (h : List (String × Nat)) (k : String) :
    hashCount (bump h k) k = hashCount h k + 1 := by
  simp [hashCount, lookup_bump_self]

/-! ## Concrete fixtures -/

def cfgPlain : Config :=
  { absolutePaths := false, groupByIssue := false, filterRule := none, resolve := id }

def cfgFilterNUV : Config := { cfgPlain with filterRule := some "no-unused-vars" }

def cfgGroup : Config := { cfgPlain with groupByIssue := true }

def cfgAbs : Config :=
  { absolutePaths := true, groupByIssue := false, filterRule := none,
    resolve := fun p => "/abs/" ++ p }

def msgSemi : Message :=
  { ruleId := some "semi", severity := 2, fatal := false, line := some 1, column := some 5,
    message := "Missing semicolon.", source := some "var a = 1" }

def msgNoUnused : Message :=
  { ruleId := some "no-unused-vars", severity := 1, fatal := false, line := some 2,
    column := some 3, message := "x is unused", source := none }

def frSemi : FileResult := { filePath := "a.js", messages := some [msgSemi] }

def frMixed : FileResult := { filePath := "a.js", messages := some [msgSemi, msgNoUnused] }

def entryNoRuleErr : Entry :=
  { filePath := "a.js", ruleId := none, severity := 2, fatal := false, line := some 1,
    column := some 1, message := "Parsing error", source := none }

def entrySrcCol8 : Entry :=
  { filePath := "a.js", ruleId := some "semi", severity := 2, fatal := false,
    line := some 1, column := some 8, message := "m", source := some "  const x = 1" }

/-! ## Claims -/

/-- C10: a null/undefined `results` argument does not fail: the missing
sequence is treated as empty (`results = results || []`) and the formatter
returns the empty string. -/
theorem missing_results_ok (cfg : Config) :
    formatResults cfg none = "" ∧ formatResults cfg none = formatResults cfg (some []) := by
  have h1 : formatResults cfg none = "" := by
    simp [formatResults, sortedEntries, sortEntries, flattenEntries]
  have h2 : formatResults cfg (some []) = "" := by
    simp [formatResults, sortedEntries, sortEntries, flattenEntries]
  exact ⟨h1, h1.trans h2.symm⟩

/-- C7: rendering a message strips exactly one trailing period when the
message ends with one and nothing otherwise; interior periods survive
("Missing semicolon." ↦ "Missing semicolon", "Line 1. Line 2." ↦
"Line 1. Line 2"). -/
theorem message_period_strip :
    (∀ (m : Entry) (b : Bool), (mkRow m b).c3 = stripTrailingPeriod m.message) ∧
    (∀ s : String, stripTrailingPeriod (s ++ ".") = s) ∧
    (∀ s : String, s.data.getLast? ≠ some '.' → stripTrailingPeriod s = s) ∧
    stripTrailingPeriod "Missing semicolon." = "Missing semicolon" ∧
    stripTrailingPeriod "Line 1. Line 2." = "Line 1. Line 2" := by
  refine ⟨fun m b => rfl, fun s => ?_, fun s h => by simp [stripTrailingPeriod, h],
    by decide, by decide⟩
  have hd : (s ++ ".").data = s.data ++ ['.'] := by simp
  simp [stripTrailingPeriod, hd, List.getLast?_concat, List.dropLast_concat]

theorem message_period_strip_witness : stripTrailingPeriod "ab.c" = "ab.c" :=
  message_period_strip.2.2.1 "ab.c" (by decide)

/-- C8: the summary line reads
"✘ <N> problem(s) (<E> error(s), <W> warning(s))" where each word gets an
"s" exactly when its count is not 1. -/
theorem pluralization_spec :
    (∀ n e w : Nat, summaryLine n e w =
      "✘ " ++ toString n ++ " problem" ++ (if n = 1 then "" else "s") ++
      " (" ++ toString e ++ " error" ++ (if e = 1 then "" else "s") ++
      ", " ++ toString w ++ " warning" ++ (if w = 1 then "" else "s") ++ ")\n") ∧
    summaryLine 1 1 0 = "✘ 1 problem (1 error, 0 warnings)\n" ∧
    summaryLine 2 1 1 = "✘ 2 problems (1 error, 1 warning)\n" ∧
    summaryLine 3 0 3 = "✘ 3 problems (0 errors, 3 warnings)\n" := by
  have hp : ∀ (w : String) (c : Nat), pluralize w c = w ++ (if c = 1 then "" else "s") := by
    intro w c
    unfold pluralize
    split <;> simp
  refine ⟨fun n e w => ?_, by decide, by decide, by decide⟩
  simp [summaryLine, String.join, hp, String.append_assoc]

/-- C9: each flattened entry is a copy of an engine message: every field
other than filePath equals the original message's field, and filePath is the
file's path, resolved exactly once when absolutePaths is enabled; the
engine-supplied records are never written to (the embedding builds a fresh
record). -/
theorem flatten_copies (cfg : Config) (results : List FileResult) (e : Entry)
    (he : e ∈ flattenEntries cfg results) :
    ∃ r ∈ results, ∃ m ∈ r.messages.getD [],
      e.ruleId = m.ruleId ∧ e.severity = m.severity ∧ e.fatal = m.fatal ∧
      e.line = m.line ∧ e.column = m.column ∧ e.message = m.message ∧
      e.source = m.source ∧
      e.filePath = (if cfg.absolutePaths then cfg.resolve r.filePath else r.filePath) := by
  simp only [flattenEntries, List.mem_flatMap, List.mem_map] at he
  obtain ⟨r, hr, m, hm, rfl⟩ := he
  exact ⟨r, hr, m, hm, rfl, rfl, rfl, rfl, rfl, rfl, rfl, rfl⟩

theorem flatten_copies_witness :
    ∃ r ∈ [frSemi], ∃ m ∈ r.messages.getD [],
      ({ filePath := "/abs/a.js", ruleId := some "semi", severity := 2, fatal := false,
         line := some 1, column := some 5, message := "Missing semicolon.",
         source := some "var a = 1" } : Entry).ruleId = m.ruleId ∧
      (2 : Nat) = m.severity ∧ false = m.fatal ∧
      (some 1 : Option Nat) = m.line ∧ (some 5 : Option Nat) = m.column ∧
      "Missing semicolon." = m.message ∧ (some "var a = 1" : Option String) = m.source ∧
      "/abs/a.js" = (if cfgAbs.absolutePaths then cfgAbs.resolve r.filePath else r.filePath) :=
  flatten_copies cfgAbs [frSemi]
    { filePath := "/abs/a.js", ruleId := some "semi", severity := 2, fatal := false,
      line := some 1, column := some 5, message := "Missing semicolon.",
      source := some "var a = 1" } (by decide)

/-- C6 counterexample: an error diagnostic with an absent ruleId is tallied
under the JS-coerced property key "undefined", not under the empty
string. -/
theorem tally_key_counterexample :
    (buildState cfgPlain [entryNoRuleErr]).errorsHash.lookup "undefined" = some 1 ∧
    (buildState cfgPlain [entryNoRuleErr]).errorsHash.lookup "" = none := by decide

/-- C6 amended: a surviving diagnostic is an error iff fatal is true or
severity equals 2; exactly one of the two global counters is incremented,
and the matching per-category tally is bumped at the JS property key of the
ruleId — the ruleId itself when present, the string "undefined" (not the
empty string) when absent. -/
theorem classification_spec (cfg : Config) (st : BuildState) (m : Entry)
    (hp : passesFilter cfg m = true) :
    ((m.fatal || m.severity == 2) = true →
      (stepEntry cfg st m).errors = st.errors + 1 ∧
      (stepEntry cfg st m).warnings = st.warnings ∧
      (stepEntry cfg st m).errorsHash = bump st.errorsHash (jsPropKey m.ruleId) ∧
      (stepEntry cfg st m).warningsHash = st.warningsHash ∧
      hashCount (stepEntry cfg st m).errorsHash (jsPropKey m.ruleId) =
        hashCount st.errorsHash (jsPropKey m.ruleId) + 1) ∧
    ((m.fatal || m.severity == 2) = false →
      (stepEntry cfg st m).warnings = st.warnings + 1 ∧
      (stepEntry cfg st m).errors = st.errors ∧
      (stepEntry cfg st m).warningsHash = bump st.warningsHash (jsPropKey m.ruleId) ∧
      (stepEntry cfg st m).errorsHash = st.errorsHash ∧
      hashCount (stepEntry cfg st m).warningsHash (jsPropKey m.ruleId) =
        hashCount st.warningsHash (jsPropKey m.ruleId) + 1) ∧
    (∀ r, jsPropKey (some r) = r) ∧ jsPropKey none = "undefined" := by
  refine ⟨fun he => ?_, fun he => ?_, fun r => rfl, rfl⟩ <;>
    simp [stepEntry, hp, he, hashCount_bump_self]

theorem classification_spec_witness :
    (stepEntry cfgPlain initState entryNoRuleErr).errors = initState.errors + 1 ∧
    (stepEntry cfgPlain initState entryNoRuleErr).warnings = initState.warnings ∧
    (stepEntry cfgPlain initState entryNoRuleErr).errorsHash =
      bump initState.errorsHash (jsPropKey entryNoRuleErr.ruleId) ∧
    (stepEntry cfgPlain initState entryNoRuleErr).warningsHash = initState.warningsHash ∧
    hashCount (stepEntry cfgPlain initState entryNoRuleErr).errorsHash
        (jsPropKey entryNoRuleErr.ruleId) =
      hashCount initState.errorsHash (jsPropKey entryNoRuleErr.ruleId) + 1 :=
  (classification_spec cfgPlain initState entryNoRuleErr (by decide)).1 (by decide)

/-- C5 counterexample: source "  const x = 1" with column 8 yields EIGHT
leading spaces before the caret, not the seven the claim states. -/
theorem pointer_counterexample :
    buildArrow "  const x = 1" (some 8) = "        ^" ∧
    buildArrow "  const x = 1" (some 8) ≠ "       ^" := by decide

/-- C5 amended: for a present source shorter than 1000 characters, the row's
location cell embeds the source and a pointer whose length before the caret
is the column VALUE (one character per index `i < column`, a tab exactly
where the source has a tab, a space otherwise) — so column 8 yields eight
leading characters, not seven; when the source is absent or of length
≥ 1000, the source/pointer area of the row is empty. -/
theorem pointer_spec (m : Entry) (b : Bool) :
    (∀ src, m.source = some src → src.length < 1000 →
      (mkRow m b).c4 =
        "$MARKER$  " ++ m.filePath ++ " : " ++ toString (m.line.getD 0) ++ ":" ++
          toString (m.column.getD 0) ++ "$MARKER$  " ++
          (src ++ "$MARKER$  " ++ buildArrow src m.column) ∧
      (buildArrow src m.column).length = m.column.getD 0 + 1 ∧
      (buildArrow src m.column).data.getLast? = some '^' ∧
      (∀ i, i < m.column.getD 0 →
        (buildArrow src m.column).data.getD i '?' =
          (if src.data.getD i ' ' = '\t' then '\t' else ' '))) ∧
    (hasSource m = false →
      (mkRow m b).c4 =
        "$MARKER$  " ++ m.filePath ++ " : " ++ toString (m.line.getD 0) ++ ":" ++
          toString (m.column.getD 0) ++ "$MARKER$  ") := by
  constructor
  · intro src hsrc hlen
    have hs : hasSource m = true := by simp [hasSource, hsrc, hlen]
    refine ⟨by simp [mkRow, hs, hsrc], ?_, ?_, ?_⟩
    · simp [buildArrow]
      decide
    · simp [buildArrow, List.getLast?_concat]
    · intro i hi
      simp only [buildArrow, String.data_append, String.length_mk]
      rw [List.getD_eq_getElem?_getD, List.getElem?_append,
        if_pos (by simpa using hi), List.getElem?_map, List.getElem?_range hi]
      simp
  · intro hs
    simp [mkRow, hs]

def entrySemiA : Entry :=
  { filePath := "a.js", ruleId := some "semi", severity := 2, fatal := false, line := some 1,
    column := some 5, message := "Missing semicolon.", source := some "var a = 1" }

def entryNoUnusedA : Entry :=
  { filePath := "a.js", ruleId := some "no-unused-vars", severity := 1, fatal := false,
    line := some 2, column := some 3, message := "x is unused", source := none }

def entryNoRuleB : Entry :=
  { filePath := "b.js", ruleId := none, severity := 1, fatal := false, line := some 1,
    column := some 1, message := "m1", source := none }

def entryRuleAA : Entry :=
  { filePath := "a.js", ruleId := some "a-rule", severity := 1, fatal := false, line := some 1,
    column := some 1, message := "m2", source := none }

theorem pointer_spec_witness :
    (buildArrow "  const x = 1" entrySrcCol8.column).length = entrySrcCol8.column.getD 0 + 1 :=
  ((pointer_spec entrySrcCol8 true).1 "  const x = 1" rfl (by decide)).2.1

theorem append_left_ne_empty {s t : String} (h : s ≠ "") : s ++ t ≠ "" := by
  intro he
  apply h
  have hd := congrArg String.data he
  rw [String.data_append] at hd
  exact String.ext (List.append_eq_nil.mp (by simpa using hd)).1

theorem newline_append_ne_empty (x : String) : "\n" ++ x ≠ "" := by
  intro h
  have hd := congrArg String.data h
  simp [String.data_append] at hd

/-- C2 amended: the rendered row count equals the number of diagnostics
surviving the filter, and global errors + warnings equals that same row
count; the N on the summary line, however, is the PRE-filter flattened entry
count, which is only an upper bound on the row count. -/
theorem count_invariant (cfg : Config) (results : Option (List FileResult)) :
    ((buildState cfg (sortedEntries cfg results)).rows.length =
      ((sortedEntries cfg results).filter (passesFilter cfg)).length) ∧
    ((buildState cfg (sortedEntries cfg results)).errors +
        (buildState cfg (sortedEntries cfg results)).warnings =
      (buildState cfg (sortedEntries cfg results)).rows.length) ∧
    reportedTotal cfg results = (sortedEntries cfg results).length ∧
    (buildState cfg (sortedEntries cfg results)).rows.length ≤ reportedTotal cfg results := by
  obtain ⟨h1, h2⟩ := foldl_stepEntry_counts cfg (sortedEntries cfg results) initState
  have h1' : (buildState cfg (sortedEntries cfg results)).rows.length =
      ((sortedEntries cfg results).filter (passesFilter cfg)).length := by
    simpa [buildState, initState] using h1
  have h2' : (buildState cfg (sortedEntries cfg results)).errors +
      (buildState cfg (sortedEntries cfg results)).warnings =
      ((sortedEntries cfg results).filter (passesFilter cfg)).length := by
    simpa [buildState, initState] using h2
  refine ⟨h1', h2'.trans h1'.symm, rfl, ?_⟩
  rw [h1']
  exact List.length_filter_le _ _

/-- C2 counterexample: with filter "no-unused-vars" on a two-diagnostic
input, the N used for the summary line is the pre-filter total 2 while only
1 row is rendered. -/
theorem count_invariant_counterexample :
    reportedTotal cfgFilterNUV (some [frMixed]) = 2 ∧
    (buildState cfgFilterNUV (sortedEntries cfgFilterNUV (some [frMixed]))).rows.length = 1 := by
  have hs : sortedEntries cfgFilterNUV (some [frMixed]) = [entryNoUnusedA, entrySemiA] := by
    simp +decide [sortedEntries, sortEntries, flattenEntries, frMixed, msgSemi, msgNoUnused,
      List.mergeSort, List.splitInTwo, List.merge, codeLe, compareEntries, jsGtStr, jsLtStr,
      jsGtNat, jsLtNat, strLt, entryNoUnusedA, entrySemiA, cfgFilterNUV, cfgPlain]
  constructor
  · simp only [reportedTotal, hs]
    decide
  · simp only [hs]
    decide

/-- C3: with a non-empty filterCategory, exactly the diagnostics whose
ruleId equals it (string equality) survive; an absent ruleId never matches;
and the whole reduce state — rows, counters, tallies — equals that of the
unfiltered run on the surviving sublist, so filtered-out diagnostics
contribute nothing anywhere. -/
theorem filter_correct (cfg : Config) (f : String) (l : List Entry)
    (hf : cfg.filterRule = some f) (hne : f ≠ "") :
    buildState cfg l =
      buildState { cfg with filterRule := none } (l.filter fun m => m.ruleId == some f) ∧
    (∀ m : Entry, passesFilter cfg m = (m.ruleId == some f)) ∧
    (∀ m : Entry, m.ruleId = none → passesFilter cfg m = false) := by
  refine ⟨?_, fun m => by simp [passesFilter, hf, hne], fun m hm => by simp [passesFilter, hf, hne, hm]⟩
  unfold buildState
  exact foldl_stepEntry_dropFilter cfg f hf hne l initState

theorem filter_correct_witness :
    buildState cfgFilterNUV [entrySemiA, entryNoUnusedA] =
      buildState { cfgFilterNUV with filterRule := none }
        ([entrySemiA, entryNoUnusedA].filter fun m => m.ruleId == some "no-unused-vars") :=
  (filter_correct cfgFilterNUV "no-unused-vars" [entrySemiA, entryNoUnusedA] rfl
    (by decide)).1

/-- C1 amended: the output is the empty string iff the FLATTENED entry list
is empty (every FileResult carries zero diagnostics); filtering does not
influence emptiness, because the emptiness test `total > 0` uses the
pre-filter entry count. -/
theorem emptiness_amended (cfg : Config) (results : Option (List FileResult)) :
    (formatResults cfg results = "" ↔ flattenEntries cfg (results.getD []) = []) ∧
    ((∀ r ∈ results.getD [], r.messages.getD [] = []) → formatResults cfg results = "") := by
  have hlen : (sortedEntries cfg results).length =
      (flattenEntries cfg (results.getD [])).length := by
    simp [sortedEntries, sortEntries]
  have main : formatResults cfg results = "" ↔ flattenEntries cfg (results.getD []) = [] := by
    rcases Nat.eq_zero_or_pos (sortedEntries cfg results).length with hz | hpos
    · have hfl : flattenEntries cfg (results.getD []) = [] :=
        List.length_eq_zero.mp (by omega)
      have hf : formatResults cfg results = "" := by
        simp only [formatResults]
        rw [if_neg (by omega)]
      simp [hf, hfl]
    · have hfl : flattenEntries cfg (results.getD []) ≠ [] := by
        intro h
        rw [h, List.length_nil] at hlen
        omega
      have hf : formatResults cfg results ≠ "" := by
        simp only [formatResults]
        rw [if_pos hpos, if_pos hpos]
        apply append_left_ne_empty
        apply append_left_ne_empty
        apply append_left_ne_empty
        apply append_left_ne_empty
        apply append_left_ne_empty
        exact newline_append_ne_empty _
      simp [hf, hfl]
  refine ⟨main, fun h => ?_⟩
  apply main.mpr
  unfold flattenEntries
  apply List.flatMap_eq_nil_iff.mpr
  intro r hr
  rw [h r hr]
  rfl

theorem emptiness_amended_witness :
    formatResults cfgPlain (some [{ filePath := "empty.js", messages := none }]) = "" :=
  (emptiness_amended cfgPlain (some [{ filePath := "empty.js", messages := none }])).2
    (by decide)

/-- C1 counterexample: a filter that removes every diagnostic still yields a
non-empty report (zero rendered rows, summary over the pre-filter total),
contradicting the claimed emptiness. -/
theorem emptiness_counterexample :
    (buildState cfgFilterNUV (sortedEntries cfgFilterNUV (some [frSemi]))).rows.length = 0 ∧
    formatResults cfgFilterNUV (some [frSemi]) ≠ "" := by
  have hs : sortedEntries cfgFilterNUV (some [frSemi]) = [entrySemiA] := by
    simp +decide [sortedEntries, sortEntries, flattenEntries, frSemi, msgSemi, entrySemiA,
      List.mergeSort]
  constructor
  · rw [hs]
    decide
  · simp only [formatResults, hs]
    decide

/-- C4 amended: the comparator orders by severity, then (when grouping)
ruleId, then filePath (code-point lexicographic), then line, then column —
but an ABSENT ruleId compares equal to every ruleId (JS relational
comparison with undefined is always false), not as the empty string; for
inputs whose diagnostics carry all their sort keys the rendered order is the
stable sort by the five-key tuple comparator: sorted, a permutation of the
input, and order-preserving on pairs already in tuple order. -/
theorem sort_spec (cfg : Config) (l : List Entry) (a b : Entry)
    (h : ∀ e ∈ l, keysPresent cfg.groupByIssue e)
    (hab : specLe cfg.groupByIssue a b = true) (hsub : List.Sublist [a, b] l) :
    (sortEntries cfg l).Pairwise (fun x y => specLe cfg.groupByIssue x y = true) ∧
    (sortEntries cfg l).Perm l ∧
    List.Sublist [a, b] (sortEntries cfg l) := by
  have harg : ∀ x ∈ l, ∀ y ∈ l, codeLe cfg x y = specLe cfg.groupByIssue (id x) (id y) := by
    intro x hx y hy
    simpa using codeLe_eq_specLe cfg x y (h x hx) (h y hy)
  have heq : sortEntries cfg l = l.mergeSort (specLe cfg.groupByIssue) := by
    have hmap := List.map_mergeSort harg
    simpa [sortEntries] using hmap
  refine ⟨?_, ?_, ?_⟩
  · rw [heq]
    exact List.sorted_mergeSort (fun x y z => specLe_trans cfg.groupByIssue x y z)
      (fun x y => specLe_total cfg.groupByIssue x y) l
  · simpa [sortEntries] using List.mergeSort_perm l (codeLe cfg)
  · rw [heq]
    exact List.pair_sublist_mergeSort (fun x y z => specLe_trans cfg.groupByIssue x y z)
      (fun x y => specLe_total cfg.groupByIssue x y) hab hsub

theorem sort_spec_witness :
    (sortEntries cfgGroup [entryNoUnusedA, entrySemiA]).Pairwise
      (fun x y => specLe cfgGroup.groupByIssue x y = true) ∧
    (sortEntries cfgGroup [entryNoUnusedA, entrySemiA]).Perm [entryNoUnusedA, entrySemiA] ∧
    List.Sublist [entryNoUnusedA, entrySemiA] (sortEntries cfgGroup [entryNoUnusedA, entrySemiA]) :=
  sort_spec cfgGroup [entryNoUnusedA, entrySemiA] entryNoUnusedA entrySemiA
    (by decide) (by decide) (List.Sublist.refl _)

/-- C4 counterexample: with grouping enabled, a diagnostic with ABSENT
ruleId does not sort as the empty string (which would come first): the code
comparator treats it as tied with every ruleId and falls through to
filePath, so the rendered order puts the "a-rule" diagnostic first even
though the spec's tuple order requires the unclassified one first. -/
theorem sort_counterexample :
    sortEntries cfgGroup [entryNoRuleB, entryRuleAA] = [entryRuleAA, entryNoRuleB] ∧
    specLe true entryRuleAA entryNoRuleB = false ∧
    specLe true entryNoRuleB entryRuleAA = true := by
  refine ⟨?_, by decide, by decide⟩
  simp +decide [sortEntries, List.mergeSort, List.splitInTwo, List.merge,
    codeLe, compareEntries, jsGtStr, jsLtStr, jsGtNat, jsLtNat, strLt,
    cfgGroup, cfgPlain, entryNoRuleB, entryRuleAA]
